import Mathlib

/-!
Verification development for the forward-model assembler of the `bread`
repository (`breads/fm/iso_atmgrid_splinefm.py`, with the `Instrument` data
container of `breads/instruments/instrument.py` as the data model).

Floating-point values are modelled as exact rationals extended with the IEEE
special values `+inf`, `-inf` and `nan` (type `FV`).  Transcendental
operations that the source takes from numpy/scipy (`np.exp`, `np.pi`,
`pyasl.fastRotBroad`, `scipy.interpolate.interp1d`) are supplied as an
explicit oracle environment `Env`; the claims settled below do not depend on
the numeric values those oracles return, only on the shapes and the control
flow of the assembler, which are embedded faithfully.
-/

/-- IEEE-style scalar: an exact rational, one of the two infinities, or NaN. -/
inductive FV where
  | fin (q : ℚ)
  | pinf
  | ninf
  | nan
deriving DecidableEq, Repr

namespace FV

/-- Embedding of `np.isnan` on scalars. -/
def isNan : FV → Bool
  | nan => true
  | _ => false

/-- Embedding of `np.isfinite` on scalars. -/
def isFinite : FV → Bool
  | fin _ => true
  | _ => false

/-- IEEE addition on the extended rationals. -/
def add : FV → FV → FV
  | nan, _ => nan
  | _, nan => nan
  | pinf, ninf => nan
  | ninf, pinf => nan
  | pinf, _ => pinf
  | _, pinf => pinf
  | ninf, _ => ninf
  | _, ninf => ninf
  | fin a, fin b => fin (a + b)

/-- IEEE multiplication on the extended rationals. -/
def mul : FV → FV → FV
  | nan, _ => nan
  | _, nan => nan
  | pinf, pinf => pinf
  | pinf, ninf => ninf
  | ninf, pinf => ninf
  | ninf, ninf => pinf
  | pinf, fin b => if 0 < b then pinf else if b < 0 then ninf else nan
  | fin a, pinf => if 0 < a then pinf else if a < 0 then ninf else nan
  | ninf, fin b => if 0 < b then ninf else if b < 0 then pinf else nan
  | fin a, ninf => if 0 < a then ninf else if a < 0 then pinf else nan
  | fin a, fin b => fin (a * b)

/-- IEEE division on the extended rationals (signed zero is not modelled;
division of a nonzero finite value by zero gives the infinity matching the
numerator's sign). -/
def div : FV → FV → FV
  | nan, _ => nan
  | _, nan => nan
  | pinf, pinf => nan
  | pinf, ninf => nan
  | ninf, pinf => nan
  | ninf, ninf => nan
  | pinf, fin b => if 0 ≤ b then pinf else ninf
  | ninf, fin b => if 0 ≤ b then ninf else pinf
  | fin _, pinf => fin 0
  | fin _, ninf => fin 0
  | fin a, fin b =>
    if b = 0 then (if a = 0 then nan else if 0 < a then pinf else ninf)
    else fin (a / b)

/-- IEEE equality test (`==` in numpy): NaN compares unequal to everything. -/
def eqb : FV → FV → Bool
  | fin a, fin b => a == b
  | pinf, pinf => true
  | ninf, ninf => true
  | _, _ => false

/-- NaN-propagating minimum, the reduction step of `np.min`. -/
def fmin : FV → FV → FV
  | nan, _ => nan
  | _, nan => nan
  | ninf, _ => ninf
  | _, ninf => ninf
  | pinf, b => b
  | a, pinf => a
  | fin a, fin b => fin (Min.min a b)

/-- NaN-propagating maximum, the reduction step of `np.max`. -/
def fmax : FV → FV → FV
  | nan, _ => nan
  | _, nan => nan
  | pinf, _ => pinf
  | _, pinf => pinf
  | ninf, b => b
  | a, ninf => a
  | fin a, fin b => fin (Max.max a b)

theorem mul_one_right (v : FV) : v.mul (fin 1) = v := by
  cases v <;> simp [mul]

end FV

/-- Embedding of `np.sum` over a 1-d array (left fold starting from `0`). -/
def fvSum (l : List FV) : FV := l.foldl FV.add (FV.fin 0)

/-- Embedding of `np.nansum` over a 1-d array (NaN entries are skipped). -/
def fvNansum (l : List FV) : FV :=
  l.foldl (fun acc v => if v.isNan then acc else FV.add acc v) (FV.fin 0)

/-- Embedding of `int(np.round x)`: round half to even. -/
def npRound (q : ℚ) : ℤ :=
  let f := ⌊q⌋
  let r := q - f
  if r < 1/2 then f
  else if 1/2 < r then f + 1
  else if f % 2 = 0 then f else f + 1

/-- Embedding of `np.linspace a b n` with `endpoint=True` (on rationals). -/
def npLinspace (a b : ℚ) (n : ℕ) : List ℚ :=
  (List.range n).map fun i => a + i * (b - a) / ((n : ℚ) - 1)

/-- `np.linspace` lifted to extended scalars; non-finite endpoints (which the
claims never exercise) are modelled coarsely as an all-NaN list of the right
length. -/
def linspaceFV : FV → FV → ℕ → List FV
  | .fin a, .fin b, n => (npLinspace a b n).map .fin
  | _, _, n => List.replicate n .nan

/-- Normalisation of a Python slice endpoint against an axis length:
negative endpoints count from the end, then the result is clamped to
`[0, len]`. -/
def pyNorm (len : ℕ) (i : ℤ) : ℕ :=
  let j : ℤ := if i < 0 then i + len else i
  let j2 : ℤ := if j < 0 then 0 else j
  (if j2 > (len : ℤ) then (len : ℤ) else j2).toNat

/-- The index list selected by the Python slice `start:stop` on an axis of
length `len` (numpy basic slicing). -/
def pySliceIdx (len : ℕ) (start stop : ℤ) : List ℕ :=
  List.range' (pyNorm len start) (pyNorm len stop - pyNorm len start)

/-- Embedding of `np.clip i 0 (n-1)` followed by use as a nonnegative index. -/
def clipIdx (i : ℤ) (n : ℕ) : ℕ :=
  (Max.max 0 (Min.min i ((n : ℤ) - 1))).toNat

/-- A 1-d array: a length and the entries. -/
structure Arr1 where
  n : ℕ
  val : ℕ → FV

/-- A 2-d array. -/
structure Arr2 where
  n1 : ℕ
  n2 : ℕ
  val : ℕ → ℕ → FV

/-- A 3-d array. -/
structure Arr3 where
  n1 : ℕ
  n2 : ℕ
  n3 : ℕ
  val : ℕ → ℕ → ℕ → FV

/-- Bundled `data`, `noise` and `bad_pixels` arrays of an observation, with
their shared dimensionality (1-d spectra, 2-d spectrograph data, or 3-d
cubes), as held by a `breads.instruments.instrument.Instrument`. -/
inductive DataSet where
  | d1 (data noise bad : Arr1)
  | d2 (data noise bad : Arr2)
  | d3 (data noise bad : Arr3)

/-- The `wavelengths` array, which may independently be 1-d, 2-d or 3-d. -/
inductive WvArr where
  | w1 (a : Arr1)
  | w2 (a : Arr2)
  | w3 (a : Arr3)

/-- Embedding of `arr[:, None, None]`. -/
def Arr1.to3 (a : Arr1) : Arr3 := ⟨a.n, 1, 1, fun z _ _ => a.val z⟩

/-- Embedding of `arr[:, :, None]`. -/
def Arr2.to3 (a : Arr2) : Arr3 := ⟨a.n1, a.n2, 1, fun z y _ => a.val z y⟩

/-- The 3-d normalisation of the `data` array (lines 72-83 of the source). -/
def DataSet.data3 : DataSet → Arr3
  | .d1 d _ _ => d.to3
  | .d2 d _ _ => d.to3
  | .d3 d _ _ => d

/-- The 3-d normalisation of the `noise` array. -/
def DataSet.noise3 : DataSet → Arr3
  | .d1 _ n _ => n.to3
  | .d2 _ n _ => n.to3
  | .d3 _ n _ => n

/-- The 3-d normalisation of the `bad_pixels` array. -/
def DataSet.bad3 : DataSet → Arr3
  | .d1 _ _ b => b.to3
  | .d2 _ _ b => b.to3
  | .d3 _ _ b => b

/-- `len(cubeobj.data.shape)`. -/
def DataSet.dim : DataSet → ℕ
  | .d1 _ _ _ => 1
  | .d2 _ _ _ => 2
  | .d3 _ _ _ => 3

/-- The 3-d normalisation of the `wavelengths` array (lines 106-111). -/
def WvArr.to3 : WvArr → Arr3
  | .w1 a => a.to3
  | .w2 a => a.to3
  | .w3 a => a

/-- Embedding of line 120,
`bad_pixels[np.where(np.isnan(transmission))[0],:,:] = np.nan`: because the
1-d and 2-d normalisations are numpy views, this write-through mutates the
observation's own `bad_pixels` array, in its original dimensionality. -/
def markTransNan (trans : List FV) : DataSet → DataSet
  | .d1 d n b =>
    .d1 d n ⟨b.n, fun z =>
      if z < trans.length ∧ (trans.getD z FV.nan).isNan = true then FV.nan else b.val z⟩
  | .d2 d n b =>
    .d2 d n ⟨b.n1, b.n2, fun z y =>
      if z < trans.length ∧ (trans.getD z FV.nan).isNan = true then FV.nan else b.val z y⟩
  | .d3 d n b =>
    .d3 d n ⟨b.n1, b.n2, b.n3, fun z y x =>
      if z < trans.length ∧ (trans.getD z FV.nan).isNan = true then FV.nan else b.val z y x⟩

/-- Observation object: the fields of `Instrument` read by the assembler. -/
structure Cubeobj where
  dset : DataSet
  wavelengths : WvArr
  bary_RV : ℚ
  refpos : Option (ℚ × ℚ)

/-- Oracle environment for the transcendental/external numerics: `np.pi`,
`np.exp`, `pyasl.fastRotBroad` (wavelengths, flux, intrinsic resolution,
vsini) and `scipy.interpolate.interp1d` (already specialised to
`bounds_error=False, fill_value=0` by its caller; the oracle maps the sample
points and sample values to the interpolating function). -/
structure Env where
  pi : ℚ
  exp : ℚ → ℚ
  fastRotBroad : List ℚ → List FV → ℚ → ℚ → List FV
  interp1d : List ℚ → List FV → FV → FV

/-- The `nodes` argument: `int`, flat list, nested list, or an unrecognized
type (anything that is neither `int` nor `list`/`ndarray`). -/
inductive NodeSpec where
  | int (n : ℕ)
  | flat (l : List ℚ)
  | nested (ls : List (List ℚ))
  | other

/-- The `loc` argument when it is not `None`: a full `(x, y)` position
(`np.size loc == 2`) or a single fiber coordinate (`np.size loc == 1`). -/
inductive Loc where
  | pt (x y : ℚ)
  | fiber (y : ℚ)

/-- All arguments of `iso_atmgrid_splinefm`, together with the oracle
environment.  `Natmparas` stands for `len(atm_grid.values.shape) - 1`, and
`atm_grid` models the composite `atm_grid(atm_paras)[0]`. -/
structure Args where
  env : Env
  nonlin_paras : List ℚ
  cubeobj : Cubeobj
  Natmparas : ℕ
  atm_grid : List ℚ → List FV
  atm_grid_wvs : List ℚ
  transmission : List FV
  boxw : ℕ
  psfw : ℚ
  nodes : NodeSpec
  badpixfraction : ℚ
  loc : Option Loc

/-- The `fitback` flag of line 151: background fitting is disabled. -/
def fitback : Bool := false

/-- Lines 151-155: the number of linear parameters. -/
def N_linparaOf (N_nodes boxw : ℕ) : ℕ :=
  if fitback then N_nodes + 3 * boxw ^ 2 else N_nodes

/-- All entries of a 3-d array in C (row-major) order. -/
def arr3Vals (a : Arr3) : List FV :=
  (List.range a.n1).flatMap fun z =>
    (List.range a.n2).flatMap fun y =>
      (List.range a.n3).map fun x => a.val z y x

/-- Embedding of `np.min` over a 3-d array (NaN-propagating reduction; the
empty case, on which numpy raises, is modelled as NaN and never exercised). -/
def arr3Min (a : Arr3) : FV :=
  match arr3Vals a with
  | [] => .nan
  | h :: t => t.foldl FV.fmin h

/-- Embedding of `np.max` over a 3-d array. -/
def arr3Max (a : Arr3) : FV :=
  match arr3Vals a with
  | [] => .nan
  | h :: t => t.foldl FV.fmax h

/-- The resolved total node count of a node specification (`N_nodes` of
lines 139-149). -/
def nodeCount : NodeSpec → ℕ
  | .int n => n
  | .flat l => l.length
  | .nested ls => (ls.map List.length).sum
  | .other => 0

/-- Lines 139-149: resolve the node specification into the total node count
and the knot groups passed on to the spline builder.  An `int` gives evenly
spaced knots spanning the observed wavelength range; a flat list is used
as-is; a nested list keeps its groups; anything else raises. -/
def resolveNodes (ns : NodeSpec) (wv : Arr3) : Except String (ℕ × List (List FV)) :=
  match ns with
  | .int n => .ok (n, [linspaceFV (arr3Min wv) (arr3Max wv) n])
  | .flat l => .ok (l.length, [l.map .fin])
  | .nested ls => .ok ((ls.map List.length).sum, ls.map (List.map .fin))
  | .other => .error "Unknown format for nodes."

/-- The speed of light in km/s, `astropy.constants.c.to('km/s').value`. -/
def c_kms : ℚ := 299792458 / 1000

/-- The Doppler factor of lines 198 and 204: observed wavelengths are
multiplied by `1 - (rv - bary_RV) / c`. -/
def dopplerFactor (rv bary : ℚ) : ℚ := 1 - (rv - bary) / c_kms

/-- The 3-d normalised data array of a call. -/
def dataCube (a : Args) : Arr3 := a.cubeobj.dset.data3

/-- The 3-d normalised noise array of a call. -/
def noiseCube (a : Args) : Arr3 := a.cubeobj.dset.noise3

/-- The observation's arrays after the in-place bad-pixel marking of
line 120; this is the post-state of the observation object. -/
def postDset (a : Args) : DataSet := markTransNan a.transmission a.cubeobj.dset

/-- The 3-d normalised bad-pixel array after the marking of line 120 (the
padding and stamp extraction read the marked array). -/
def badCube (a : Args) : Arr3 := (postDset a).bad3

/-- The 3-d normalised wavelength array. -/
def wvs3 (a : Args) : Arr3 := a.cubeobj.wavelengths.to3

/-- `nz` of line 104. -/
def nzOf (a : Args) : ℕ := (dataCube a).n1

/-- `ny` of line 104. -/
def nyOf (a : Args) : ℕ := (dataCube a).n2

/-- `nx` of line 104. -/
def nxOf (a : Args) : ℕ := (dataCube a).n3

/-- Lines 114-117: the stamp-width configuration checks, in source order
(performed before the bad-pixel marking of line 120). -/
def cfgErr (a : Args) : Option String :=
  if a.boxw % 2 = 0 then
    some "boxw, the width of stamp around the planet, must be odd in splinefm()."
  else if a.boxw > nyOf a ∨ a.boxw > nxOf a then
    some "boxw cannot be bigger than the data in splinefm()."
  else none

/-- `other_nonlin_paras` of line 68. -/
def otherParas (a : Args) : List ℚ := a.nonlin_paras.drop a.Natmparas

/-- `atm_paras` of line 67. -/
def atmParas (a : Args) : List ℚ := a.nonlin_paras.take a.Natmparas

/-- `vsini` of line 89. -/
def vsiniOf (a : Args) : ℚ := (otherParas a).getD 0 0

/-- `rv` of line 89. -/
def rvOf (a : Args) : ℚ := (otherParas a).getD 1 0

/-- Lines 92-102: resolution of the planet position from `loc`, the data
dimensionality and the trailing non-linear parameters. -/
def locXY (loc : Option Loc) (dim : ℕ) (other : List ℚ) : ℚ × ℚ :=
  match loc with
  | some (.pt x y) => (x, y)
  | some (.fiber y) => (0, y)
  | none =>
    if dim = 1 then (0, 0)
    else if dim = 2 then (0, other.getD 2 0)
    else (other.getD 3 0, other.getD 2 0)

/-- The `(x, y)` position used by a call. -/
def xyOf (a : Args) : ℚ × ℚ := locXY a.loc a.cubeobj.dset.dim (otherParas a)

/-- Lines 84-87: `refpos`, defaulting to `[0, 0]` when `None`. -/
def refposOf (a : Args) : ℚ × ℚ :=
  match a.cubeobj.refpos with
  | none => (0, 0)
  | some r => r

/-- `w = int((boxw - 1) // 2)` of line 123. -/
def wHalf (a : Args) : ℕ := (a.boxw - 1) / 2

/-- Lines 129-130: the integer stamp center `(k, l)` (before the padding
shift of line 131) and the recorded offsets `(dx, dy) = (x - l, y - k)`. -/
def stampCenter (refpos : ℚ × ℚ) (x y : ℚ) : ℤ × ℤ × ℚ × ℚ :=
  let k0 := npRound (refpos.2 + y)
  let l0 := npRound (refpos.1 + x)
  (k0, l0, x - l0, y - k0)

/-- `k` of line 129. -/
def k0Of (a : Args) : ℤ := (stampCenter (refposOf a) (xyOf a).1 (xyOf a).2).1

/-- `l` of line 129. -/
def l0Of (a : Args) : ℤ := (stampCenter (refposOf a) (xyOf a).1 (xyOf a).2).2.1

/-- `dx` of line 130. -/
def dxOf (a : Args) : ℚ := (stampCenter (refposOf a) (xyOf a).1 (xyOf a).2).2.2.1

/-- `dy` of line 130. -/
def dyOf (a : Args) : ℚ := (stampCenter (refposOf a) (xyOf a).1 (xyOf a).2).2.2.2

/-- `k` after the shift `k = k + w` of line 131 (coordinates in the padded
arrays). -/
def kPadOf (a : Args) : ℤ := k0Of a + wHalf a

/-- `l` after the shift `l = l + w` of line 131. -/
def lPadOf (a : Args) : ℤ := l0Of a + wHalf a

/-- An entry of the NaN-padded array of lines 126-128 (`np.pad` with
half-width `w` on both spatial axes, constant NaN fill). -/
def padVal (arr : Arr3) (w : ℕ) (z i j : ℕ) : FV :=
  if w ≤ i ∧ i < arr.n2 + w ∧ w ≤ j ∧ j < arr.n3 + w then
    arr.val z (i - w) (j - w)
  else .nan

/-- The padded-row indices selected by the slice `k-w : k+w+1` of
lines 132-134. -/
def rowsIdx (a : Args) : List ℕ :=
  pySliceIdx (nyOf a + 2 * wHalf a) (kPadOf a - wHalf a) (kPadOf a + wHalf a + 1)

/-- The padded-column indices selected by the slice `l-w : l+w+1`. -/
def colsIdx (a : Args) : List ℕ :=
  pySliceIdx (nxOf a + 2 * wHalf a) (lPadOf a - wHalf a) (lPadOf a + wHalf a + 1)

/-- `np.ravel` of the stamp sub-cube of a padded array (C order). -/
def stampOf (a : Args) (arr : Arr3) : List FV :=
  (List.range (nzOf a)).flatMap fun z =>
    (rowsIdx a).flatMap fun i =>
      (colsIdx a).map fun j => padVal arr (wHalf a) z i j

/-- `d` of line 132. -/
def stampD (a : Args) : List FV := stampOf a (dataCube a)

/-- `s` of line 133. -/
def stampS (a : Args) : List FV := stampOf a (noiseCube a)

/-- `badpixs` of line 134, before the zero-noise marking. -/
def stampBad0 (a : Args) : List FV := stampOf a (badCube a)

/-- `badpixs` after line 135: pixels whose noise is exactly zero are marked
bad. -/
def stampBadpixs (a : Args) : List FV :=
  List.zipWith (fun b sv => if FV.eqb sv (.fin 0) then .nan else b)
    (stampBad0 a) (stampS a)

/-- Embedding of `np.where(np.isfinite(l))[0]` on a 1-d array. -/
def whereFinite (l : List FV) : List ℕ :=
  (List.range l.length).filter fun i => (l.getD i .nan).isFinite

/-- `where_finite` of line 157. -/
def whereFin (a : Args) : List ℕ := whereFinite (stampBadpixs a)

/-- The data-insufficiency test of line 158. -/
def earlyReject (a : Args) : Bool :=
  decide (((whereFin a).length : ℚ) ≤
      (1 - a.badpixfraction) * ((stampBadpixs a).length : ℚ))
    || decide (vsiniOf a < 0)

/-- `planet_model` of line 163. -/
def planetModel (a : Args) : List FV := a.atm_grid (atmParas a)

/-- The degenerate-grid test of line 165: a NaN entry, a zero sum, or a
length mismatch against the native wavelength grid. -/
def gridReject (a : Args) : Bool :=
  (planetModel a).any FV.isNan
    || FV.eqb (fvSum (planetModel a)) (.fin 0)
    || decide (a.atm_grid_wvs.length ≠ (planetModel a).length)

/-- Embedding of `pixgauss2d` (lines 11-25) as called by the assembler:
`hdfactor = 1`, so the high-resolution grid is the pixel grid itself
(`xhdgrid[i,j] = j`, `yhdgrid[i,j] = i`) and the block average is the
identity.  The value at pixel `(i, j)` is
`A / (2 pi w^2) * exp(-0.5 ((xA-j)^2 + (yA-i)^2) / w^2) + bkg`. -/
def pixgauss2d (env : Env) (A xA yA w bkg : ℚ) (i j : ℕ) : FV :=
  FV.add
    (FV.mul (FV.div (.fin A) (.fin (2 * env.pi * w ^ 2)))
      (.fin (env.exp (-(1 / 2) * ((xA - (j : ℚ)) ^ 2 + (yA - (i : ℚ)) ^ 2) / w ^ 2))))
    (.fin bkg)

/-- Lines 168-172: the (possibly spin-broadened) template interpolator
`planet_f`, bounds-safe with zero fill. -/
def planetF (a : Args) : FV → FV :=
  let pm := planetModel a
  let spin := if vsiniOf a ≠ 0 then
      a.env.fastRotBroad a.atm_grid_wvs pm (1 / 10) (vsiniOf a)
    else pm
  a.env.interp1d a.atm_grid_wvs spin

/-- The wavelength sample `wvs[z, clip(ki, 0, nywv-1), clip(li, 0, nxwv-1)]`
used at spatial offsets that may fall outside the wavelength array. -/
def lwvAt (a : Args) (z : ℕ) (ki li : ℤ) : FV :=
  (wvs3 a).val z (clipIdx ki (wvs3 a).n2) (clipIdx li (wvs3 a).n3)

/-- `lwvs` of line 174: the wavelength samples at the stamp corner
`(k - 2w, l - 2w)` (in padded coordinates), clipped into range. -/
def lwvsCenter (a : Args) : List FV :=
  (List.range (wvs3 a).n1).map fun z =>
    lwvAt a z (kPadOf a - 2 * wHalf a) (lPadOf a - 2 * wHalf a)

/-- A single triangular basis response, the entry model of the spline design
matrix below. -/
def hatFV : FV → FV → FV
  | .fin t, .fin x => .fin (Max.max 0 (1 - |x - t|))
  | _, _ => .nan

/-- Modelled from the spec: `get_spline_model` is imported from
`breads.utils`, which is not under `src/`.  The spec gives only its
contract — given node positions (possibly grouped), wavelength samples and a
spline degree, it returns a design matrix with one row per wavelength sample
and one column per node, the columns forming a partition-of-unity-like
piecewise basis over the breakpoints.  The entries are modelled here as a
triangular basis response; the claims proved below rely only on the shape
contract. -/
def get_spline_model (knotGroups : List (List FV)) (samples : List FV)
    (spline_degree : ℕ) : List (List FV) :=
  let _ := spline_degree
  samples.map fun x => knotGroups.flatten.map fun t => hatFV t x

/-- The un-normalised PSF stamp of line 194: `pixgauss2d` with amplitude 1,
center `(w + dx, w + dy)`, width `psfw` and background 0. -/
def psfRaw (a : Args) (i j : ℕ) : FV :=
  pixgauss2d a.env 1 ((wHalf a : ℚ) + dxOf a) ((wHalf a : ℚ) + dyOf a) a.psfw 0 i j

/-- `np.nansum(psfs, axis=(1,2))` of line 195 (the PSF stamp is constant in
the wavelength axis, so this is one scalar). -/
def psfSumOf (a : Args) : FV :=
  fvNansum ((List.range a.boxw).flatMap fun i =>
    (List.range a.boxw).map fun j => psfRaw a i j)

/-- The normalised PSF weight of line 195. -/
def psfNorm (a : Args) (i j : ℕ) : FV := FV.div (psfRaw a i j) (psfSumOf a)

/-- `planet_spec` of line 204 for stamp offset `(ki, li)` at wavelength
channel `z`: transmission times the Doppler-shifted template. -/
def planetSpecAt (a : Args) (ki li z : ℕ) : FV :=
  FV.mul (a.transmission.getD z .nan)
    (planetF a
      (FV.mul (lwvAt a z (kPadOf a - 2 * wHalf a + ki) (lPadOf a - 2 * wHalf a + li))
        (.fin (dopplerFactor (rvOf a) a.cubeobj.bary_RV))))

/-- `M_spline[z, n]` of line 176, built from the stamp-corner wavelengths. -/
def msplineGet (a : Args) (knots : List (List FV)) (z n : ℕ) : FV :=
  ((get_spline_model knots (lwvsCenter a) 3).getD z []).getD n .nan

/-- `scaled_psfs[z, ki, li, n]` of line 205: PSF weight times spline basis
times planet spectrum. -/
def scaledPsfEntry (a : Args) (knots : List (List FV)) (z ki li n : ℕ) : FV :=
  FV.mul (FV.mul (psfNorm a ki li) (msplineGet a knots z n)) (planetSpecAt a ki li z)

/-- Lines 211-213: the model matrix `M`, the `(nz, boxw, boxw, N_linpara)`
tensor reshaped to `(nz * boxw * boxw, N_linpara)` in C order. -/
def modelRows (a : Args) (knots : List (List FV)) (nLin : ℕ) : List (List FV) :=
  (List.range (nzOf a * a.boxw * a.boxw)).map fun t =>
    (List.range nLin).map fun n =>
      scaledPsfEntry a knots (t / (a.boxw * a.boxw))
        (t % (a.boxw * a.boxw) / a.boxw) (t % a.boxw) n

/-- The returned model matrix: its column count and its rows. -/
structure MatF where
  ncols : ℕ
  rows : List (List FV)
deriving DecidableEq

/-- The returned triple `(d, M, s)`. -/
structure FMResult where
  d : List FV
  M : MatF
  s : List FV
deriving DecidableEq

/-- The canonical empty triple of lines 160 and 166:
`np.array([]), np.array([]).reshape(0, N_linpara), np.array([])`. -/
def emptyFM (nLin : ℕ) : FMResult := ⟨[], ⟨nLin, []⟩, []⟩

/-- Lines 214-219: the kept-row filtering producing `dr`, `Mr`, `sr`. -/
def mainResult (a : Args) (knots : List (List FV)) (nLin : ℕ) : FMResult :=
  ⟨(whereFin a).map fun i => (stampD a).getD i .nan,
   ⟨nLin, (whereFin a).map fun i => (modelRows a knots nLin).getD i []⟩,
   (whereFin a).map fun i => (stampS a).getD i .nan⟩

/-- The forward-model assembler `iso_atmgrid_splinefm` (lines 28-219).
The first component is the returned triple, or the raised error; the second
component is the post-state of the observation's arrays (the bad-pixel
marking of line 120 writes through to `cubeobj.bad_pixels`, and happens only
after the stamp-width checks of lines 114-117 pass). -/
def iso_atmgrid_splinefm (a : Args) : Except String FMResult × DataSet :=
  match cfgErr a with
  | some e => (.error e, a.cubeobj.dset)
  | none =>
    match resolveNodes a.nodes (wvs3 a) with
    | .error e => (.error e, postDset a)
    | .ok (nN, knots) =>
      let nLin := N_linparaOf nN a.boxw
      if earlyReject a then (.ok (emptyFM nLin), postDset a)
      else if gridReject a then (.ok (emptyFM nLin), postDset a)
      else (.ok (mainResult a knots nLin), postDset a)

deriving instance DecidableEq for Except

theorem getD_drop {α : Type} (l : List α) (n i : ℕ) (d : α) :
    (l.drop n).getD i d = l.getD (n + i) d := by
  induction l generalizing n with
  | nil => simp
  | cons h t ih =>
    cases n with
    | zero => simp
    | succ m =>
      rw [List.drop_succ_cons, ih m, Nat.succ_add, List.getD_cons_succ]

theorem getD_range_map {α : Type} (m i : ℕ) (f : ℕ → α) (d : α) (h : i < m) :
    ((List.range m).map f).getD i d = f i := by
  rw [List.getD_eq_getElem?_getD, List.getElem?_map, List.getElem?_range h]
  rfl

theorem whereFinite_mem (l : List FV) (i : ℕ) :
    i ∈ whereFinite l ↔ i < l.length ∧ (l.getD i .nan).isFinite = true := by
  simp [whereFinite, List.mem_filter, List.mem_range]

theorem length_flatMap_const {α β : Type} (l : List α) (f : α → List β) (c : ℕ)
    (h : ∀ x ∈ l, (f x).length = c) : (l.flatMap f).length = l.length * c := by
  induction l with
  | nil => simp
  | cons a t ih =>
    simp only [List.flatMap_cons, List.length_append, List.length_cons]
    rw [h a (by simp), ih (fun x hx => h x (by simp [hx]))]
    ring

theorem stampOf_length (a : Args) (arr : Arr3) :
    (stampOf a arr).length = nzOf a * ((rowsIdx a).length * (colsIdx a).length) := by
  unfold stampOf
  rw [length_flatMap_const _ _ ((rowsIdx a).length * (colsIdx a).length), List.length_range]
  intro z _
  rw [length_flatMap_const _ _ (colsIdx a).length]
  intro i _
  exact List.length_map ..

theorem stampBadpixs_length (a : Args) :
    (stampBadpixs a).length = nzOf a * ((rowsIdx a).length * (colsIdx a).length) := by
  simp [stampBadpixs, List.length_zipWith, stampOf_length, stampBad0, stampS]

theorem pySliceIdx_length_le (len : ℕ) (s : ℤ) (b : ℕ) :
    (pySliceIdx len s (s + b)).length ≤ b := by
  simp only [pySliceIdx, List.length_range', pyNorm]
  split_ifs <;> omega

theorem two_wHalf (a : Args) (h : a.boxw % 2 = 1) : 2 * wHalf a + 1 = a.boxw := by
  unfold wHalf
  omega

theorem rowsIdx_length_le (a : Args) (h : a.boxw % 2 = 1) :
    (rowsIdx a).length ≤ a.boxw := by
  have hw := two_wHalf a h
  unfold rowsIdx
  have he : kPadOf a + (wHalf a : ℤ) + 1 = (kPadOf a - wHalf a) + (a.boxw : ℕ) := by
    omega
  rw [he]
  exact pySliceIdx_length_le ..

theorem colsIdx_length_le (a : Args) (h : a.boxw % 2 = 1) :
    (colsIdx a).length ≤ a.boxw := by
  have hw := two_wHalf a h
  unfold colsIdx
  have he : lPadOf a + (wHalf a : ℤ) + 1 = (lPadOf a - wHalf a) + (a.boxw : ℕ) := by
    omega
  rw [he]
  exact pySliceIdx_length_le ..

theorem resolveNodes_ok_count (ns : NodeSpec) (wv : Arr3) (n : ℕ) (ks : List (List FV))
    (h : resolveNodes ns wv = .ok (n, ks)) : n = nodeCount ns := by
  cases ns <;> simp_all [resolveNodes, nodeCount]

theorem cfgErr_none_iff (a : Args) :
    cfgErr a = none ↔ a.boxw % 2 ≠ 0 ∧ ¬(a.boxw > nyOf a ∨ a.boxw > nxOf a) := by
  unfold cfgErr
  split_ifs <;> simp_all

theorem N_linpara_eq (nN boxw : ℕ) : N_linparaOf nN boxw = nN := by
  simp [N_linparaOf, fitback]

theorem stampBadpixs_length_le (a : Args) (h : a.boxw % 2 = 1) :
    (stampBadpixs a).length ≤ nzOf a * a.boxw * a.boxw := by
  rw [stampBadpixs_length, Nat.mul_assoc]
  exact Nat.mul_le_mul le_rfl
    (Nat.mul_le_mul (rowsIdx_length_le a h) (colsIdx_length_le a h))

theorem mainResult_shapes (a : Args) (knots : List (List FV)) (nLin : ℕ)
    (h : a.boxw % 2 = 1) :
    (mainResult a knots nLin).d.length = (whereFin a).length ∧
    (mainResult a knots nLin).s.length = (whereFin a).length ∧
    (mainResult a knots nLin).M.rows.length = (whereFin a).length ∧
    ∀ row ∈ (mainResult a knots nLin).M.rows, row.length = nLin := by
  refine ⟨List.length_map .., List.length_map .., List.length_map .., ?_⟩
  intro row hrow
  simp only [mainResult, List.mem_map] at hrow
  obtain ⟨i, hi, rfl⟩ := hrow
  have hlt : i < (stampBadpixs a).length := ((whereFinite_mem _ _).mp hi).1
  have hlt2 : i < nzOf a * a.boxw * a.boxw :=
    Nat.lt_of_lt_of_le hlt (stampBadpixs_length_le a h)
  rw [modelRows, getD_range_map _ _ _ _ hlt2, List.length_map, List.length_range]

theorem iso_ok_shapes (a : Args) (r : FMResult)
    (h : (iso_atmgrid_splinefm a).1 = .ok r) :
    r.d.length = r.s.length ∧ r.M.rows.length = r.d.length ∧
    r.M.ncols = nodeCount a.nodes ∧ ∀ row ∈ r.M.rows, row.length = r.M.ncols := by
  unfold iso_atmgrid_splinefm at h
  cases hc : cfgErr a with
  | some e => rw [hc] at h; simp at h
  | none =>
    rw [hc] at h
    have hodd : a.boxw % 2 = 1 := by
      have := (cfgErr_none_iff a).mp hc
      omega
    cases hr : resolveNodes a.nodes (wvs3 a) with
    | error e => rw [hr] at h; simp at h
    | ok p =>
      obtain ⟨nN, knots⟩ := p
      rw [hr] at h
      simp only [N_linpara_eq] at h
      have hcount : nN = nodeCount a.nodes := resolveNodes_ok_count _ _ _ _ hr
      by_cases he : earlyReject a = true
      · rw [if_pos he] at h
        simp only [Prod.fst, Except.ok.injEq] at h
        subst h
        simp [emptyFM, hcount]
      · rw [if_neg he] at h
        by_cases hg : gridReject a = true
        · rw [if_pos hg] at h
          simp only [Prod.fst, Except.ok.injEq] at h
          subst h
          simp [emptyFM, hcount]
        · rw [if_neg hg] at h
          simp only [Prod.fst, Except.ok.injEq] at h
          subst h
          obtain ⟨h1, h2, h3, h4⟩ := mainResult_shapes a knots nN hodd
          refine ⟨by rw [h1, h2], by rw [h3, h1], hcount, ?_⟩
          intro row hrow
          rw [h4 row hrow]
          rfl

/-- Projection of a non-raising result. -/
def okResult : Except String FMResult → FMResult
  | .ok r => r
  | .error _ => emptyFM 0

/-- Whether the call raised. -/
def isErrorRes : Except String FMResult → Bool
  | .error _ => true
  | .ok _ => false

theorem iso_snd (a : Args) :
    (iso_atmgrid_splinefm a).2 =
      match cfgErr a with
      | some _ => a.cubeobj.dset
      | none => postDset a := by
  unfold iso_atmgrid_splinefm
  cases cfgErr a with
  | some e => rfl
  | none =>
    cases resolveNodes a.nodes (wvs3 a) with
    | error e => rfl
    | ok p =>
      obtain ⟨nN, ks⟩ := p
      by_cases he : earlyReject a = true
      · simp [he]
      · by_cases hg : gridReject a = true
        · simp [he, hg]
        · simp [he, hg]

theorem earlyReject_iff (a : Args) :
    earlyReject a = true ↔
      (((whereFin a).length : ℚ) ≤
          (1 - a.badpixfraction) * ((stampBadpixs a).length : ℚ)
        ∨ vsiniOf a < 0) := by
  simp [earlyReject]

theorem gridReject_iff (a : Args) :
    gridReject a = true ↔
      ((planetModel a).any FV.isNan = true
        ∨ FV.eqb (fvSum (planetModel a)) (.fin 0) = true
        ∨ a.atm_grid_wvs.length ≠ (planetModel a).length) := by
  unfold gridReject
  rw [Bool.or_eq_true, Bool.or_eq_true, decide_eq_true_eq]
  tauto

theorem iso_empty_iff (a : Args)
    (hb : a.badpixfraction ≤ 1)
    (hc : cfgErr a = none)
    (nN : ℕ) (ks : List (List FV))
    (hr : resolveNodes a.nodes (wvs3 a) = .ok (nN, ks)) :
    (iso_atmgrid_splinefm a).1 = .ok (emptyFM (nodeCount a.nodes)) ↔
      (((whereFin a).length : ℚ) ≤
          (1 - a.badpixfraction) * ((stampBadpixs a).length : ℚ)
        ∨ vsiniOf a < 0
        ∨ (planetModel a).any FV.isNan = true
        ∨ FV.eqb (fvSum (planetModel a)) (.fin 0) = true
        ∨ a.atm_grid_wvs.length ≠ (planetModel a).length) := by
  have hcount : nN = nodeCount a.nodes := resolveNodes_ok_count _ _ _ _ hr
  subst hcount
  unfold iso_atmgrid_splinefm
  rw [hc, hr]
  simp only [N_linpara_eq]
  constructor
  · intro h
    by_cases he : earlyReject a = true
    · rcases (earlyReject_iff a).mp he with h1 | h1
      · exact Or.inl h1
      · exact Or.inr (Or.inl h1)
    · rw [if_neg he] at h
      by_cases hg : gridReject a = true
      · rcases (gridReject_iff a).mp hg with h1 | h1 | h1
        · exact Or.inr (Or.inr (Or.inl h1))
        · exact Or.inr (Or.inr (Or.inr (Or.inl h1)))
        · exact Or.inr (Or.inr (Or.inr (Or.inr h1)))
      · exfalso
        rw [if_neg hg] at h
        simp only [Except.ok.injEq] at h
        have hd : (mainResult a ks (nodeCount a.nodes)).d = [] := by rw [h]; rfl
        have hwf : whereFin a = [] := by
          simpa [mainResult] using hd
        apply he
        rw [earlyReject_iff]
        left
        rw [hwf]
        simp only [List.length_nil, Nat.cast_zero]
        have h1 : (0 : ℚ) ≤ 1 - a.badpixfraction := by linarith
        exact mul_nonneg h1 (Nat.cast_nonneg _)
  · intro h
    by_cases he : earlyReject a = true
    · rw [if_pos he]
    · rw [if_neg he]
      have hg : gridReject a = true := by
        rw [gridReject_iff]
        rcases h with h1 | h1 | h1 | h1 | h1
        · exact absurd ((earlyReject_iff a).mpr (Or.inl h1)) he
        · exact absurd ((earlyReject_iff a).mpr (Or.inr h1)) he
        · exact Or.inl h1
        · exact Or.inr (Or.inl h1)
        · exact Or.inr (Or.inr h1)
      rw [if_pos hg]

/-- Real-number semantics of `pixgauss2d` as called by the assembler
(`hdfactor = 1`, so the block average is the identity): the value at pixel
`(i, j)` is `A / (2 pi w^2) * exp(-0.5 ((xA-j)^2 + (yA-i)^2) / w^2) + bkg`.
This is the analytic counterpart of `pixgauss2d`, used for the claim about
the normalisation of the PSF weights, which is a statement of real
arithmetic rather than of the rational oracle model. -/
noncomputable def pixgauss2dR (A xA yA w bkg : ℝ) (i j : ℕ) : ℝ :=
  A / (2 * Real.pi * w ^ 2) *
    Real.exp (-(1 / 2) * ((xA - (j : ℝ)) ^ 2 + (yA - (i : ℝ)) ^ 2) / w ^ 2) + bkg

/-- The stamp total `np.nansum(psfs)` of line 195 in real arithmetic (the
kernel values are all finite, so `nansum` is the plain sum). -/
noncomputable def psfStampSumR (boxw : ℕ) (xA yA w : ℝ) : ℝ :=
  ∑ i ∈ Finset.range boxw, ∑ j ∈ Finset.range boxw, pixgauss2dR 1 xA yA w 0 i j

theorem pixgauss2dR_pos (xA yA w : ℝ) (hw : 0 < w) (i j : ℕ) :
    0 < pixgauss2dR 1 xA yA w 0 i j := by
  unfold pixgauss2dR
  have hwne : w ≠ 0 := ne_of_gt hw
  have hw2 : (0 : ℝ) < 2 * Real.pi * w ^ 2 := by positivity
  have hexp := Real.exp_pos (-(1 / 2) * ((xA - (j : ℝ)) ^ 2 + (yA - (i : ℝ)) ^ 2) / w ^ 2)
  have h1 : (0 : ℝ) < 1 / (2 * Real.pi * w ^ 2) := by positivity
  rw [add_zero]
  exact mul_pos (by positivity) hexp

theorem psfStampSumR_pos (boxw : ℕ) (xA yA w : ℝ) (hb : 0 < boxw) (hw : 0 < w) :
    0 < psfStampSumR boxw xA yA w := by
  unfold psfStampSumR
  have hne : (Finset.range boxw).Nonempty := Finset.nonempty_range_iff.mpr (by omega)
  apply Finset.sum_pos (fun i _ => ?_) hne
  exact Finset.sum_pos (fun j _ => pixgauss2dR_pos xA yA w hw i j) hne

theorem markTransNan_data3 (trans : List FV) (ds : DataSet) :
    (markTransNan trans ds).data3 = ds.data3 := by
  cases ds <;> rfl

theorem markTransNan_noise3 (trans : List FV) (ds : DataSet) :
    (markTransNan trans ds).noise3 = ds.noise3 := by
  cases ds <;> rfl

theorem markTransNan_bad3_val (trans : List FV) (ds : DataSet) (z y x : ℕ) :
    (markTransNan trans ds).bad3.val z y x =
      if z < trans.length ∧ (trans.getD z FV.nan).isNan = true then FV.nan
      else ds.bad3.val z y x := by
  cases ds <;> simp [markTransNan, DataSet.bad3, Arr1.to3, Arr2.to3]

theorem iso_main (a : Args) (nN : ℕ) (ks : List (List FV))
    (hc : cfgErr a = none) (hr : resolveNodes a.nodes (wvs3 a) = .ok (nN, ks))
    (he : earlyReject a = false) (hg : gridReject a = false) :
    (iso_atmgrid_splinefm a).1 = .ok (mainResult a ks nN) := by
  unfold iso_atmgrid_splinefm
  rw [hc, hr]
  simp [he, hg, N_linpara_eq]

/-- Definition following the spec's words for claim C2: the spec's stated
grid-lookup reject condition — the looked-up spectrum contains "any
non-finite value, an all-zero spectrum, or a spectrum whose length differs
from the native wavelength grid's length".  (The code, by contrast, tests
`np.isnan` and a zero sum; see the counterexample.) -/
def specGridRejectCond (pm : List FV) (gridWvs : List ℚ) : Prop :=
  (∃ v ∈ pm, v.isFinite = false) ∨ (∀ v ∈ pm, v = .fin 0) ∨ gridWvs.length ≠ pm.length

instance (pm : List FV) (gridWvs : List ℚ) : Decidable (specGridRejectCond pm gridWvs) := by
  unfold specGridRejectCond
  infer_instance

section ConcreteInputs

attribute [local semireducible] Rat.add Rat.mul Rat.inv Rat.sub

/-- Trivial oracle environment used by the concrete runs below. -/
def Wenv : Env := ⟨3, fun _ => 1, fun _ l _ _ => l, fun _ _ _ => .fin 1⟩

/-- A two-channel 1-d observation with clean data. -/
def Wobs : Cubeobj :=
  ⟨.d1 ⟨2, fun z => if z = 0 then .fin 1 else .fin 2⟩
       ⟨2, fun _ => .fin 1⟩
       ⟨2, fun _ => .fin 1⟩,
   .w1 ⟨2, fun z => if z = 0 then .fin 1 else .fin 2⟩, 0, none⟩

/-- A clean call that reaches the main path. -/
def W1 : Args :=
  ⟨Wenv, [0, 0], Wobs, 0, fun _ => [.fin 1, .fin 1], [1, 2], [.fin 1, .fin 1],
   1, 6/5, .flat [1, 2], 3/4, none⟩

/-- A call rejected early by a negative rotational velocity. -/
def W2 : Args :=
  ⟨Wenv, [-1, 0], Wobs, 0, fun _ => [.fin 1, .fin 1], [1, 2], [.fin 1, .fin 1],
   1, 6/5, .flat [1, 2], 3/4, none⟩

/-- A call whose atmosphere-grid lookup contains a positive infinity (a
non-finite value that is not NaN). -/
def W2c : Args :=
  ⟨Wenv, [0, 0], Wobs, 0, fun _ => [.pinf, .fin 1], [1, 2], [.fin 1, .fin 1],
   1, 6/5, .flat [1, 2], 3/4, none⟩

/-- A call whose transmission has a NaN channel (and which returns the empty
triple because of a negative rotational velocity). -/
def W3c : Args :=
  ⟨Wenv, [-1, 0], Wobs, 0, fun _ => [.fin 1, .fin 1], [1, 2], [.nan, .fin 1],
   1, 6/5, .flat [1, 2], 3/4, none⟩

/-- A call with an even stamp width. -/
def W4 : Args :=
  ⟨Wenv, [0, 0], Wobs, 0, fun _ => [.fin 1, .fin 1], [1, 2], [.fin 1, .fin 1],
   2, 6/5, .flat [1, 2], 3/4, none⟩

/-- A clean main-path call (identical to `W1`, kept separate for the claim
about row filtering). -/
def W6 : Args :=
  ⟨Wenv, [0, 0], Wobs, 0, fun _ => [.fin 1, .fin 1], [1, 2], [.fin 1, .fin 1],
   1, 6/5, .flat [1, 2], 3/4, none⟩

/-- An observation whose first data value is NaN while its bad-pixel mask is
everywhere finite. -/
def Wobs6c : Cubeobj :=
  ⟨.d1 ⟨2, fun z => if z = 0 then .nan else .fin 2⟩
       ⟨2, fun _ => .fin 1⟩
       ⟨2, fun _ => .fin 1⟩,
   .w1 ⟨2, fun z => if z = 0 then .fin 1 else .fin 2⟩, 0, none⟩

/-- A main-path call whose data contains a NaN at a good pixel. -/
def W6c : Args :=
  ⟨Wenv, [0, 0], Wobs6c, 0, fun _ => [.fin 1, .fin 1], [1, 2], [.fin 1, .fin 1],
   1, 6/5, .flat [1, 2], 3/4, none⟩

/-- A call with a nested node specification `[[1,2],[3,4,5]]` (rejected
early by a negative rotational velocity, which leaves the column count
visible in the returned empty matrix). -/
def W7 : Args :=
  ⟨Wenv, [-1, 0], Wobs, 0, fun _ => [.fin 1, .fin 1], [1, 2], [.fin 1, .fin 1],
   1, 6/5, .nested [[1, 2], [3, 4, 5]], 3/4, none⟩

/-- A small wavelength array with minimum 1 and maximum 2. -/
def Wwv : Arr3 := ⟨1, 1, 2, fun _ _ x => if x = 0 then .fin 1 else .fin 2⟩

/-- A clean call with `rv = bary_RV = 0`. -/
def W9 : Args :=
  ⟨Wenv, [0, 0], Wobs, 0, fun _ => [.fin 1, .fin 1], [1, 2], [.fin 1, .fin 1],
   1, 6/5, .flat [1, 2], 3/4, none⟩

/-- A 3-d observation used for the parameter-layout claim. -/
def Wobs10 : Cubeobj :=
  ⟨.d3 ⟨2, 5, 5, fun _ _ _ => .fin 1⟩ ⟨2, 5, 5, fun _ _ _ => .fin 1⟩
       ⟨2, 5, 5, fun _ _ _ => .fin 1⟩,
   .w1 ⟨2, fun z => if z = 0 then .fin 1 else .fin 2⟩, 0, none⟩

/-- A 3-d call with `loc = None` and non-linear parameters `[1, 2, 3, 4]`. -/
def W10 : Args :=
  ⟨Wenv, [1, 2, 3, 4], Wobs10, 0, fun _ => [.fin 1, .fin 1], [1, 2], [.fin 1, .fin 1],
   1, 6/5, .flat [1, 2], 3/4, none⟩

/-- C1: whenever `iso_atmgrid_splinefm` returns (does not raise a
configuration error), the returned data vector, noise vector and model
matrix row count are all equal in length, and the model matrix's column
count equals the resolved total node count (background fitting being
disabled), in every branch including the early-exit empty result. -/
theorem C1_result_shapes (a : Args) (r : FMResult)
    (h : (iso_atmgrid_splinefm a).1 = .ok r) :
    r.d.length = r.s.length ∧ r.M.rows.length = r.d.length ∧
    r.M.ncols = nodeCount a.nodes ∧ ∀ row ∈ r.M.rows, row.length = r.M.ncols :=
  iso_ok_shapes a r h

/-- Witness for C1 at a concrete main-path call. -/
theorem C1_result_shapes_witness :
    (okResult (iso_atmgrid_splinefm W1).1).d.length =
        (okResult (iso_atmgrid_splinefm W1).1).s.length ∧
      (okResult (iso_atmgrid_splinefm W1).1).M.rows.length =
        (okResult (iso_atmgrid_splinefm W1).1).d.length ∧
      (okResult (iso_atmgrid_splinefm W1).1).M.ncols = nodeCount W1.nodes ∧
      ∀ row ∈ (okResult (iso_atmgrid_splinefm W1).1).M.rows,
        row.length = (okResult (iso_atmgrid_splinefm W1).1).M.ncols :=
  C1_result_shapes W1 (okResult (iso_atmgrid_splinefm W1).1) (by decide)

/-- C2 (amended): with a well-formed configuration and a bad-pixel fraction
of at most one, the call returns the canonical empty triple exactly when the
good-pixel count is at or below `(1 - badpixfraction)` times the stamp pixel
count, or the rotational velocity is negative, or the atmosphere-grid
lookup contains a NaN entry, sums to zero under IEEE summation, or has a
length differing from the native wavelength grid's.  (The claim's
"any non-finite value" and "all-zero spectrum" are amended to the NaN test
and the zero-sum test the code performs; see the counterexample.) -/
theorem C2_empty_iff (a : Args)
    (hb : a.badpixfraction ≤ 1)
    (hc : cfgErr a = none)
    (nN : ℕ) (ks : List (List FV))
    (hr : resolveNodes a.nodes (wvs3 a) = .ok (nN, ks)) :
    (iso_atmgrid_splinefm a).1 = .ok (emptyFM (nodeCount a.nodes)) ↔
      (((whereFin a).length : ℚ) ≤
          (1 - a.badpixfraction) * ((stampBadpixs a).length : ℚ)
        ∨ vsiniOf a < 0
        ∨ (planetModel a).any FV.isNan = true
        ∨ FV.eqb (fvSum (planetModel a)) (.fin 0) = true
        ∨ a.atm_grid_wvs.length ≠ (planetModel a).length) :=
  iso_empty_iff a hb hc nN ks hr

/-- Witness for C2 at a concrete early-rejected call. -/
theorem C2_empty_iff_witness :
    (iso_atmgrid_splinefm W2).1 = .ok (emptyFM (nodeCount W2.nodes)) :=
  (C2_empty_iff W2 (by decide) (by decide) 2 [[.fin 1, .fin 2]] (by decide)).mpr
    (Or.inr (Or.inl (by decide)))

/-- Counterexample to C2 as stated: at `W2c` the atmosphere-grid lookup
contains a positive infinity — a non-finite value, so the claim's reject
conditions hold — yet the code (which only tests `np.isnan`) proceeds and
returns a non-empty result. -/
theorem C2_counterexample :
    specGridRejectCond (planetModel W2c) W2c.atm_grid_wvs
  ∧ ¬(((whereFin W2c).length : ℚ) ≤
        (1 - W2c.badpixfraction) * ((stampBadpixs W2c).length : ℚ))
  ∧ ¬(vsiniOf W2c < 0)
  ∧ (iso_atmgrid_splinefm W2c).1 ≠ .ok (emptyFM (nodeCount W2c.nodes)) := by
  decide

/-- C3 (amended): a call leaves the observation's data and noise arrays (and
its wavelengths, which are only read) untouched, but it mutates the
bad-pixel array in place: whenever the stamp-width checks pass, every
wavelength channel at which the transmission is NaN is overwritten with NaN
across all spatial positions (the write at line 120 goes through a numpy
view into `cubeobj.bad_pixels`); all other entries keep their prior values. -/
theorem C3_state_effect (a : Args) (z y x : ℕ) :
    ((iso_atmgrid_splinefm a).2.data3.val z y x = a.cubeobj.dset.data3.val z y x)
  ∧ ((iso_atmgrid_splinefm a).2.noise3.val z y x = a.cubeobj.dset.noise3.val z y x)
  ∧ ((iso_atmgrid_splinefm a).2.bad3.val z y x =
      if cfgErr a = none ∧ z < a.transmission.length ∧
          (a.transmission.getD z FV.nan).isNan = true
      then FV.nan else a.cubeobj.dset.bad3.val z y x) := by
  rw [iso_snd]
  cases hc : cfgErr a with
  | some e => simp [hc]
  | none =>
    simp only [postDset, hc, true_and]
    exact ⟨by rw [markTransNan_data3], by rw [markTransNan_noise3],
      markTransNan_bad3_val a.transmission a.cubeobj.dset z y x⟩

/-- Counterexample to C3 as stated: at `W3c` the call returns (the empty
triple), yet afterwards `cubeobj.bad_pixels` no longer holds its prior
value at channel 0 — the transmission NaN has been written through. -/
theorem C3_counterexample :
    (iso_atmgrid_splinefm W3c).1 = .ok (emptyFM 2)
  ∧ (iso_atmgrid_splinefm W3c).2.bad3.val 0 0 0 = FV.nan
  ∧ W3c.cubeobj.dset.bad3.val 0 0 0 = FV.fin 1 := by
  decide

/-- C4: an even stamp width, a stamp width exceeding the spatial extent of
the 3-d normalised data, or an unrecognized node-specification type makes
the call abort with an error rather than return any result. -/
theorem C4_config_errors (a : Args)
    (h : a.boxw % 2 = 0 ∨ a.boxw > nyOf a ∨ a.boxw > nxOf a ∨ a.nodes = .other) :
    isErrorRes (iso_atmgrid_splinefm a).1 = true := by
  unfold iso_atmgrid_splinefm
  cases hc : cfgErr a with
  | some e => rfl
  | none =>
    have hx := (cfgErr_none_iff a).mp hc
    have hn : a.nodes = .other := by
      rcases h with h | h | h | h
      · exact absurd h hx.1
      · exact absurd (Or.inl h) hx.2
      · exact absurd (Or.inr h) hx.2
      · exact h
    rw [hn]
    simp [resolveNodes, isErrorRes]

/-- Witness for C4 at a concrete even-width call. -/
theorem C4_config_errors_witness :
    isErrorRes (iso_atmgrid_splinefm W4).1 = true :=
  C4_config_errors W4 (Or.inl (by decide))

/-- C5, evaluated at the failing input `refpos = (3, 0)`, offset
`(x, y) = (1/2, 0)`: the integer center is the rounding `l = 4` of
`refpos[0] + x = 3.5`, whose residual is `-1/2`, but the code records
`dx = x - l = -7/2`, which is not the rounding residual — so the PSF is
placed three pixels away from the claimed sub-pixel position whenever the
reference position is nonzero. -/
theorem C5_dx_eval :
    (stampCenter (3, 0) (1/2) 0).2.1 = 4
  ∧ (stampCenter (3, 0) (1/2) 0).2.2.1 = -7/2
  ∧ ((3 : ℚ) + 1/2) - (4 : ℚ) = -1/2
  ∧ (stampCenter (3, 0) (1/2) 0).2.2.1 ≠ ((3 : ℚ) + 1/2) - (4 : ℚ) := by
  decide

/-- C6 (amended): on every main-path return, a flattened stamp pixel's row
is kept exactly when its (marked) bad-pixel value is finite, and the
returned data and noise vectors are the stamp values at the kept rows; if,
in addition, the data and noise are finite wherever the bad-pixel mask is
finite (the data-model invariant), then every returned data and noise entry
is finite.  (The unconditional finiteness in the claim as stated fails: the
code never checks the data itself — see the counterexample.) -/
theorem C6_kept_rows (a : Args) (r : FMResult)
    (hok : (iso_atmgrid_splinefm a).1 = .ok r)
    (he : earlyReject a = false) (hg : gridReject a = false) :
    r.d = ((whereFin a).map fun i => (stampD a).getD i .nan)
  ∧ r.s = ((whereFin a).map fun i => (stampS a).getD i .nan)
  ∧ (∀ i, i ∈ whereFin a ↔
      i < (stampBadpixs a).length ∧ ((stampBadpixs a).getD i .nan).isFinite = true)
  ∧ ((∀ i, i < (stampBadpixs a).length →
        ((stampBadpixs a).getD i .nan).isFinite = true →
        ((stampD a).getD i .nan).isFinite = true ∧
          ((stampS a).getD i .nan).isFinite = true) →
      (∀ v ∈ r.d, v.isFinite = true) ∧ (∀ v ∈ r.s, v.isFinite = true)) := by
  unfold iso_atmgrid_splinefm at hok
  cases hc : cfgErr a with
  | some e => rw [hc] at hok; simp at hok
  | none =>
    rw [hc] at hok
    cases hr : resolveNodes a.nodes (wvs3 a) with
    | error e => rw [hr] at hok; simp at hok
    | ok p =>
      obtain ⟨nN, ks⟩ := p
      rw [hr] at hok
      simp only [he, hg, Bool.false_eq_true, if_false, Except.ok.injEq] at hok
      subst hok
      refine ⟨rfl, rfl, fun i => whereFinite_mem _ i, ?_⟩
      intro hinv
      constructor
      · intro v hv
        simp only [mainResult, List.mem_map] at hv
        obtain ⟨i, hi, rfl⟩ := hv
        have hm := (whereFinite_mem _ i).mp hi
        exact (hinv i hm.1 hm.2).1
      · intro v hv
        simp only [mainResult, List.mem_map] at hv
        obtain ⟨i, hi, rfl⟩ := hv
        have hm := (whereFinite_mem _ i).mp hi
        exact (hinv i hm.1 hm.2).2

/-- Witness for C6 at a concrete clean main-path call. -/
theorem C6_kept_rows_witness :
    (∀ v ∈ (okResult (iso_atmgrid_splinefm W6).1).d, v.isFinite = true) ∧
    (∀ v ∈ (okResult (iso_atmgrid_splinefm W6).1).s, v.isFinite = true) :=
  (C6_kept_rows W6 (okResult (iso_atmgrid_splinefm W6).1)
    (by decide) (by decide) (by decide)).2.2.2 (by decide)

/-- Counterexample to C6 as stated: at `W6c` every stamp bad-pixel value is
finite (so every row is kept), yet the returned data vector contains a NaN —
the data value itself is NaN at a pixel whose bad-pixel mask is finite. -/
theorem C6_counterexample :
    (stampBadpixs W6c).all FV.isFinite = true
  ∧ (iso_atmgrid_splinefm W6c).1 = .ok (okResult (iso_atmgrid_splinefm W6c).1)
  ∧ (okResult (iso_atmgrid_splinefm W6c).1).d.any FV.isNan = true := by
  decide

/-- C7: an integer node specification `n` resolves to `n` evenly spaced
knots spanning the minimum to the maximum of the observed wavelength array;
a flat list is used as-is with its length as the node count; a nested list
resolves to the sum of the group sizes; in particular `[[a,b],[c,d,e]]`
resolves to 5 nodes and any returned model matrix then has 5 columns. -/
theorem C7_node_resolution :
    (∀ (n : ℕ) (wv : Arr3) (qa qb : ℚ), arr3Min wv = .fin qa → arr3Max wv = .fin qb →
      resolveNodes (.int n) wv =
        .ok (n, [(List.range n).map fun i => .fin (qa + i * (qb - qa) / ((n : ℚ) - 1))]))
  ∧ (∀ (l : List ℚ) (wv : Arr3),
      resolveNodes (.flat l) wv = .ok (l.length, [l.map .fin]))
  ∧ (∀ (ls : List (List ℚ)) (wv : Arr3),
      resolveNodes (.nested ls) wv = .ok ((ls.map List.length).sum, ls.map (List.map .fin)))
  ∧ (∀ qa qb qc qd qe : ℚ, nodeCount (.nested [[qa, qb], [qc, qd, qe]]) = 5)
  ∧ (∀ (a : Args) (r : FMResult) (qa qb qc qd qe : ℚ),
      a.nodes = .nested [[qa, qb], [qc, qd, qe]] →
      (iso_atmgrid_splinefm a).1 = .ok r → r.M.ncols = 5) := by
  refine ⟨?_, fun l wv => rfl, fun ls wv => rfl, fun qa qb qc qd qe => rfl, ?_⟩
  · intro n wv qa qb hmin hmax
    simp [resolveNodes, hmin, hmax, linspaceFV, npLinspace]
  · intro a r qa qb qc qd qe hn hok
    have h := (iso_ok_shapes a r hok).2.2.1
    rw [h, hn]
    rfl

/-- Witness for C7: the `int` case evaluated on a concrete wavelength array,
and the nested case `[[1,2],[3,4,5]]` giving a 5-column matrix on a
concrete call. -/
theorem C7_node_resolution_witness :
    resolveNodes (.int 3) Wwv =
      .ok (3, [(List.range 3).map fun i => .fin (1 + i * (2 - 1) / ((3 : ℚ) - 1))])
  ∧ (okResult (iso_atmgrid_splinefm W7).1).M.ncols = 5 :=
  ⟨C7_node_resolution.1 3 Wwv 1 2 (by decide) (by decide),
   C7_node_resolution.2.2.2.2 W7 (okResult (iso_atmgrid_splinefm W7).1)
     1 2 3 4 5 rfl (by decide)⟩

/-- C8: for every positive PSF width and every sub-pixel center, the
normalised PSF weights — the `pixgauss2d` kernel with amplitude 1 and
background 0, divided by its stamp total — sum to 1 over the `boxw x boxw`
stamp, exactly in real arithmetic. -/
theorem C8_psf_normalised (boxw : ℕ) (xA yA w : ℝ) (hb : 0 < boxw) (hw : 0 < w) :
    ∑ i ∈ Finset.range boxw, ∑ j ∈ Finset.range boxw,
      pixgauss2dR 1 xA yA w 0 i j / psfStampSumR boxw xA yA w = 1 := by
  have hne : psfStampSumR boxw xA yA w ≠ 0 :=
    ne_of_gt (psfStampSumR_pos boxw xA yA w hb hw)
  simp only [← Finset.sum_div]
  exact div_self hne

/-- Witness for C8 at a 3-by-3 stamp with width 6/5 and center (1/2, 1/2). -/
theorem C8_psf_normalised_witness :
    ∑ i ∈ Finset.range 3, ∑ j ∈ Finset.range 3,
      pixgauss2dR 1 (1/2) (1/2) (6/5) 0 i j / psfStampSumR 3 (1/2) (1/2) (6/5) = 1 :=
  C8_psf_normalised 3 (1/2) (1/2) (6/5) (by norm_num) (by norm_num)

/-- C9: wavelengths are Doppler-shifted by multiplication with
`1 - (rv - bary_RV) / c`; when `rv = bary_RV` the shift is the identity, so
any interpolator — in particular the assembler's template evaluation in
`planet_spec` — is evaluated at the unshifted observed wavelength. -/
theorem C9_doppler_identity :
    (∀ q rv bary : ℚ,
      FV.mul (.fin q) (.fin (dopplerFactor rv bary)) =
        .fin (q * (1 - (rv - bary) / c_kms)))
  ∧ (∀ (rv : ℚ) (lam : FV), FV.mul lam (.fin (dopplerFactor rv rv)) = lam)
  ∧ (∀ (f : FV → FV) (rv : ℚ) (lam : FV),
      f (FV.mul lam (.fin (dopplerFactor rv rv))) = f lam)
  ∧ (∀ (a : Args) (ki li z : ℕ), rvOf a = a.cubeobj.bary_RV →
      planetSpecAt a ki li z =
        FV.mul (a.transmission.getD z .nan)
          (planetF a
            (lwvAt a z (kPadOf a - 2 * wHalf a + ki) (lPadOf a - 2 * wHalf a + li)))) := by
  have hfac : ∀ rv : ℚ, dopplerFactor rv rv = 1 := by
    intro rv
    simp [dopplerFactor]
  refine ⟨fun q rv bary => rfl, ?_, ?_, ?_⟩
  · intro rv lam
    rw [hfac rv]
    exact FV.mul_one_right lam
  · intro f rv lam
    rw [hfac rv]
    rw [FV.mul_one_right lam]
  · intro a ki li z hrv
    unfold planetSpecAt
    rw [hrv, hfac, FV.mul_one_right]

/-- Witness for C9: the template evaluation at a concrete call with
`rv = bary_RV`. -/
theorem C9_doppler_identity_witness :
    planetSpecAt W9 0 0 0 =
      FV.mul (W9.transmission.getD 0 .nan)
        (planetF W9
          (lwvAt W9 0 (kPadOf W9 - 2 * wHalf W9 + 0) (lPadOf W9 - 2 * wHalf W9 + 0))) :=
  C9_doppler_identity.2.2.2 W9 0 0 0 (by decide)

/-- C10: entry `Natmparas` of the non-linear parameter vector is always
`vsini` and entry `Natmparas + 1` is always `rv`; with `loc = None` and 3-d
data, entry `Natmparas + 2` is the `y` offset and entry `Natmparas + 3` the
`x` offset (y precedes x); a scalar `loc` gives position `(0, loc)`; with
`loc = None` and 1-d data the position is `(0, 0)`. -/
theorem C10_param_layout (a : Args) :
    vsiniOf a = a.nonlin_paras.getD a.Natmparas 0
  ∧ rvOf a = a.nonlin_paras.getD (a.Natmparas + 1) 0
  ∧ (a.loc = none → a.cubeobj.dset.dim = 3 →
      xyOf a = (a.nonlin_paras.getD (a.Natmparas + 3) 0,
                a.nonlin_paras.getD (a.Natmparas + 2) 0))
  ∧ (∀ q, a.loc = some (.fiber q) → xyOf a = (0, q))
  ∧ (a.loc = none → a.cubeobj.dset.dim = 1 → xyOf a = (0, 0)) := by
  refine ⟨?_, ?_, ?_, ?_, ?_⟩
  · show (otherParas a).getD 0 0 = _
    rw [otherParas, getD_drop, Nat.add_zero]
  · show (otherParas a).getD 1 0 = _
    rw [otherParas, getD_drop]
  · intro hl hd
    unfold xyOf
    rw [hl, hd]
    show locXY none 3 (otherParas a) = _
    unfold locXY
    rw [if_neg (by decide : ¬(3 : ℕ) = 1), if_neg (by decide : ¬(3 : ℕ) = 2),
      otherParas, getD_drop, getD_drop]
  · intro q hl
    unfold xyOf
    rw [hl]
    rfl
  · intro hl hd
    unfold xyOf
    rw [hl, hd]
    rfl

/-- Witness for C10 at a concrete 3-d call with `loc = None`. -/
theorem C10_param_layout_witness :
    vsiniOf W10 = W10.nonlin_paras.getD W10.Natmparas 0
  ∧ xyOf W10 = (W10.nonlin_paras.getD (W10.Natmparas + 3) 0,
                W10.nonlin_paras.getD (W10.Natmparas + 2) 0) :=
  ⟨(C10_param_layout W10).1, (C10_param_layout W10).2.2.1 rfl (by decide)⟩

end ConcreteInputs
